import Mathlib

/-!
Verification of the EducationPosts scraper (`src/scrapers/scraper_educationposts.py`).

Texts are modelled as `List Char` (one Python `str` character per entry).
Python's substring test `pat in hay` is contiguous-substring containment,
i.e. the list-infix relation; `str.lower()` maps `Char.toLower` over the
characters (the patterns involved are ASCII).
-/

namespace EduPosts

/-- Python `pat in hay` for strings: contiguous substring containment. -/
def containsSub (hay pat : List Char) : Bool := decide (pat <:+: hay)

/-- Python `s.lower()`, character-wise. -/
def lowerStr (s : List Char) : List Char := s.map Char.toLower

/-- Python `s.strip()`: drop whitespace from both ends. -/
def stripChars (s : List Char) : List Char :=
  ((s.dropWhile Char.isWhitespace).reverse.dropWhile Char.isWhitespace).reverse

/-- Python `s.split(pat)[0]`: everything before the first occurrence of
`pat`, or all of `s` when `pat` does not occur. -/
def splitBefore (s pat : List Char) : List Char :=
  match s with
  | [] => []
  | c :: rest => if pat.isPrefixOf (c :: rest) then [] else c :: splitBefore rest pat

/-- Python `' '.join(parts)`. -/
def joinSp : List (List Char) → List Char
  | [] => []
  | [x] => x
  | x :: xs => x ++ ' ' :: joinSp xs

/- Frequently used literal tokens. -/
def teacherTok : List Char := ("teacher").toList
def principalTeacherTok : List Char := ("principal teacher").toList
def specialPlacementTok : List Char := ("special school teacher placement").toList
def specialSchoolTok : List Char := ("special school").toList
def placementTok : List Char := ("placement").toList

/-- `is_valid_vacancy` (scraper_educationposts.py lines 101-140): the Filter
Engine deciding whether a vacancy label qualifies. Sequential exclusion
checks, translated if-by-if from the source; `if not vacancy_name` is the
Python truthiness test, i.e. the empty string is rejected. -/
def is_valid_vacancy (vacancy_name : List Char) : Bool :=
  if vacancy_name.isEmpty then false
  else
    let v := lowerStr vacancy_name
    if !containsSub v teacherTok then false
    else if containsSub v principalTeacherTok then false
    else if containsSub v specialPlacementTok then false
    else if containsSub v specialSchoolTok && containsSub v placementTok then false
    else if containsSub v placementTok && containsSub v teacherTok then false
    else true

/- ------------------------------------------------------------------ -/
/- Helper lemmas about the text model.                                 -/
/- ------------------------------------------------------------------ -/

theorem containsSub_iff_cs {hay pat : List Char} :
    containsSub hay pat = true ↔ pat <:+: hay := by
  simp [containsSub]

theorem containsSub_trans_cs {a b pat : List Char}
    (hab : a <:+: b) (h : containsSub a pat = true) : containsSub b pat = true := by
  rw [containsSub_iff_cs] at h ⊢
  exact h.trans hab

theorem containsSub_false_of_cs {a b pat : List Char}
    (hab : a <:+: b) (h : containsSub b pat = false) : containsSub a pat = false := by
  cases hc : containsSub a pat with
  | false => rfl
  | true => rw [containsSub_trans_cs hab hc] at h; cases h

theorem infixOf_prefixPart {a b : List Char} (h : a <+: b) : a <:+: b := by
  obtain ⟨t, ht⟩ := h
  exact ⟨[], t, by simpa using ht⟩

theorem infixOf_suffixPart {a b : List Char} (h : a <:+ b) : a <:+: b := by
  obtain ⟨t, ht⟩ := h
  exact ⟨t, [], by simpa using ht⟩

theorem infixTrans {a b c : List Char} (h₁ : a <:+: b) (h₂ : b <:+: c) : a <:+: c := by
  obtain ⟨s, t, rfl⟩ := h₁
  obtain ⟨u, v, rfl⟩ := h₂
  exact ⟨u ++ s, t ++ v, by simp⟩

theorem dropWhile_suffixPart (p : Char → Bool) (l : List Char) : l.dropWhile p <:+ l := by
  induction l with
  | nil => simp
  | cons c t ih =>
    by_cases h : p c
    · simp only [List.dropWhile_cons, h, if_true]
      exact ih.trans (List.suffix_cons c t)
    · simp [List.dropWhile_cons, h]

theorem stripChars_infixPart (s : List Char) : stripChars s <:+: s := by
  have h1 : s.dropWhile Char.isWhitespace <:+ s := dropWhile_suffixPart _ s
  obtain ⟨u, hu⟩ :=
    dropWhile_suffixPart Char.isWhitespace (s.dropWhile Char.isWhitespace).reverse
  have hpre : stripChars s <+: s.dropWhile Char.isWhitespace := by
    refine ⟨u.reverse, ?_⟩
    have := congrArg List.reverse hu
    simpa [stripChars] using this
  exact infixTrans (infixOf_prefixPart hpre) (infixOf_suffixPart h1)

theorem splitBefore_prefixPart (s pat : List Char) : splitBefore s pat <+: s := by
  induction s with
  | nil => simp [splitBefore]
  | cons c rest ih =>
    rw [splitBefore]
    by_cases h : pat.isPrefixOf (c :: rest) = true
    · simp [h]
    · simp only [h, if_false]
      obtain ⟨t, ht⟩ := ih
      exact ⟨t, by simp [ht]⟩

theorem lowerStr_mono_cs {a b : List Char} (h : a <:+: b) : lowerStr a <:+: lowerStr b := by
  obtain ⟨s, t, rfl⟩ := h
  exact ⟨lowerStr s, lowerStr t, by simp [lowerStr]⟩

theorem placement_of_specialPlacement {v : List Char}
    (h : containsSub v specialPlacementTok = true) :
    containsSub v placementTok = true := by
  have hp : containsSub specialPlacementTok placementTok = true := by decide
  exact containsSub_trans_cs (containsSub_iff_cs.mp h) hp

theorem isEmpty_false_of_ne {L : List Char} (hne : L ≠ []) : L.isEmpty = false := by
  cases L with
  | nil => exact absurd rfl hne
  | cons c t => rfl

/-- C1: for every label string L, `is_valid_vacancy L` returns true if and
only if the lower-cased L contains "teacher", does not contain
"principal teacher", does not contain both "special school" and
"placement", and does not contain both "placement" and "teacher". -/
theorem is_valid_vacancy_spec_iff (L : List Char) :
    is_valid_vacancy L = true ↔
      (containsSub (lowerStr L) teacherTok = true ∧
       containsSub (lowerStr L) principalTeacherTok = false ∧
       ¬(containsSub (lowerStr L) specialSchoolTok = true ∧
         containsSub (lowerStr L) placementTok = true) ∧
       ¬(containsSub (lowerStr L) placementTok = true ∧
         containsSub (lowerStr L) teacherTok = true)) := by
  rcases eq_or_ne L [] with rfl | hne
  · decide
  · have hE : L.isEmpty = false := isEmpty_false_of_ne hne
    cases ht : containsSub (lowerStr L) teacherTok with
    | false => simp [is_valid_vacancy, hE, ht]
    | true =>
      cases hp : containsSub (lowerStr L) principalTeacherTok with
      | true => simp [is_valid_vacancy, hE, ht, hp]
      | false =>
        cases hsp : containsSub (lowerStr L) specialPlacementTok with
        | true =>
          have hpl := placement_of_specialPlacement hsp
          simp [is_valid_vacancy, hE, ht, hp, hsp, hpl]
        | false =>
          cases hss : containsSub (lowerStr L) specialSchoolTok with
          | true =>
            cases hpl : containsSub (lowerStr L) placementTok with
            | true => simp [is_valid_vacancy, hE, ht, hp, hsp, hss, hpl]
            | false => simp [is_valid_vacancy, hE, ht, hp, hsp, hss, hpl]
          | false =>
            cases hpl : containsSub (lowerStr L) placementTok with
            | true => simp [is_valid_vacancy, hE, ht, hp, hsp, hss, hpl]
            | false => simp [is_valid_vacancy, hE, ht, hp, hsp, hss, hpl]

/-- C9: for every label string L, `is_valid_vacancy L` equals the simpler
predicate "lower-cased L contains teacher, and contains neither
principal teacher nor placement": the exact-phrase clause and the
special school and placement clause are redundant given the teacher
requirement and the placement-with-teacher exclusion. -/
theorem is_valid_vacancy_eq_simplified (L : List Char) :
    is_valid_vacancy L =
      (containsSub (lowerStr L) teacherTok &&
       !containsSub (lowerStr L) principalTeacherTok &&
       !containsSub (lowerStr L) placementTok) := by
  rcases eq_or_ne L [] with rfl | hne
  · decide
  · have hE : L.isEmpty = false := isEmpty_false_of_ne hne
    cases ht : containsSub (lowerStr L) teacherTok with
    | false => simp [is_valid_vacancy, hE, ht]
    | true =>
      cases hp : containsSub (lowerStr L) principalTeacherTok with
      | true => simp [is_valid_vacancy, hE, ht, hp]
      | false =>
        cases hsp : containsSub (lowerStr L) specialPlacementTok with
        | true =>
          have hpl := placement_of_specialPlacement hsp
          simp [is_valid_vacancy, hE, ht, hp, hsp, hpl]
        | false =>
          cases hss : containsSub (lowerStr L) specialSchoolTok with
          | true =>
            cases hpl : containsSub (lowerStr L) placementTok with
            | true => simp [is_valid_vacancy, hE, ht, hp, hsp, hss, hpl]
            | false => simp [is_valid_vacancy, hE, ht, hp, hsp, hss, hpl]
          | false =>
            cases hpl : containsSub (lowerStr L) placementTok with
            | true => simp [is_valid_vacancy, hE, ht, hp, hsp, hss, hpl]
            | false => simp [is_valid_vacancy, hE, ht, hp, hsp, hss, hpl]

/- ------------------------------------------------------------------ -/
/- Email Validator (lines 61-78 of the source).                        -/
/- ------------------------------------------------------------------ -/

/-- `BAD_MAIL` (line 62): the blocklisted domain markers. -/
def BAD_MAIL : List (List Char) :=
  [("noreply").toList, ("no-reply").toList, ("wordpress").toList,
   ("example.com").toList, ("educationposts.ie").toList, ("teachingcouncil.ie").toList]

def websiteTok : List Char := ("Website").toList

/-- Tests whether a candidate match hits the blocklist: Python
`any(b in m.lower() for b in BAD_MAIL)`. -/
def hits_blocklist (m : List Char) : Bool :=
  BAD_MAIL.any (fun b => containsSub (lowerStr m) b)

/-- `first_valid_email` (lines 69-78). The regular-expression engine
(`re.findall` over `EMAIL_RE`) is external library code; a text is
represented here by the list of matches `EMAIL_RE.findall` returns on it,
in order. For each match the source skips it when any blocklist marker
occurs in its lower-casing, and otherwise strips it, truncates it before
a literal "Website" when present, and returns it. -/
def first_valid_email : List (List Char) → Option (List Char)
  | [] => none
  | m :: rest =>
    if hits_blocklist m then first_valid_email rest
    else
      let e := stripChars m
      some (if containsSub e websiteTok then stripChars (splitBefore e websiteTok) else e)

theorem first_valid_email_none_iff (ms : List (List Char)) :
    first_valid_email ms = none ↔ ∀ m ∈ ms, hits_blocklist m = true := by
  induction ms with
  | nil => simp [first_valid_email]
  | cons m rest ih =>
    rw [first_valid_email]
    by_cases h : hits_blocklist m = true
    · simp [h, ih]
    · simp [h]

theorem first_valid_email_clean (ms : List (List Char)) (e : List Char)
    (he : first_valid_email ms = some e) :
    ∀ b ∈ BAD_MAIL, containsSub (lowerStr e) b = false := by
  induction ms with
  | nil => simp [first_valid_email] at he
  | cons m rest ih =>
    rw [first_valid_email] at he
    by_cases h : hits_blocklist m = true
    · rw [if_pos h] at he
      exact ih he
    · rw [if_neg h] at he
      have hm : ∀ b ∈ BAD_MAIL, containsSub (lowerStr m) b = false := by
        intro b hb
        cases hc : containsSub (lowerStr m) b with
        | false => rfl
        | true =>
          exact absurd (by simp only [hits_blocklist, List.any_eq_true]; exact ⟨b, hb, hc⟩) h
      have hinf : e <:+: m := by
        have hstrip : stripChars m <:+: m := stripChars_infixPart m
        have : (if containsSub (stripChars m) websiteTok then
            stripChars (splitBefore (stripChars m) websiteTok) else stripChars m) = e := by
          simpa using he
        rw [← this]
        by_cases hw : containsSub (stripChars m) websiteTok = true
        · rw [if_pos hw]
          refine infixTrans (infixTrans (stripChars_infixPart _) ?_) hstrip
          exact infixOf_prefixPart (splitBefore_prefixPart _ _)
        · rw [if_neg hw]
          exact hstrip
      intro b hb
      exact containsSub_false_of_cs (lowerStr_mono_cs hinf) (hm b hb)

/-- C4: for every input (represented by its ordered list of regex
matches), `first_valid_email` never returns an address containing a
blocklisted domain marker, and it returns none exactly when no
syntactically valid email address (i.e. no regex match) passes the
blocklist. -/
theorem first_valid_email_spec :
    (∀ (ms : List (List Char)) (e : List Char),
        first_valid_email ms = some e →
        ∀ b ∈ BAD_MAIL, containsSub (lowerStr e) b = false)
    ∧ (∀ ms : List (List Char),
        first_valid_email ms = none ↔
          ∀ m ∈ ms, ∃ b ∈ BAD_MAIL, containsSub (lowerStr m) b = true) := by
  constructor
  · exact first_valid_email_clean
  · intro ms
    rw [first_valid_email_none_iff]
    constructor
    · intro h m hm
      have := h m hm
      simpa [hits_blocklist, List.any_eq_true] using this
    · intro h m hm
      obtain ⟨b, hb, hc⟩ := h m hm
      simp only [hits_blocklist, List.any_eq_true]
      exact ⟨b, hb, hc⟩

/-- Witness for C4: on the match list ["noreply@x.com", "info@school.ie"]
the first match is blocklisted; the returned address "info@school.ie"
contains no blocklist marker. -/
theorem first_valid_email_spec_witness :
    containsSub (lowerStr (("info@school.ie").toList)) (("noreply").toList) = false :=
  first_valid_email_spec.1 [("noreply@x.com").toList, ("info@school.ie").toList]
    (("info@school.ie").toList) (by decide) (("noreply").toList) (by decide)

/- ------------------------------------------------------------------ -/
/- Pagination Discoverer: `_get_pages` (lines 366-399).                -/
/- ------------------------------------------------------------------ -/

/-- Outcome of fetching and parsing the first listing page for pagination
discovery. `fetchOk = false` models the HTTP GET (or body read) raising.
`lastChild` is the element selected by
`.pagination li:last-child a[data-page]`: `none` when the selector has no
match, `some none` when its data-page attribute does not parse as an int
(`int(...)` raises), `some (some k)` when it parses to k. `links` are the
parsed data-page attributes of all `.pagination a[data-page]` elements,
with `none` for an unparsable one. -/
structure PaginationPage where
  fetchOk : Bool
  status : Nat
  lastChild : Option (Option Int)
  links : List (Option Int)

/-- Python `max` over a nonempty list of ints (0 for the empty list,
which the source never reaches). -/
def list_max : List Int → Int
  | [] => 0
  | [x] => x
  | x :: xs => max x (list_max xs)

/-- `_get_pages` (lines 366-399), translated branch by branch: any raise
is caught and yields 1; a non-200 status yields 1; an `int()` failure on
the last pagination item raises into the same handler; only when the
last-item selector has no match are all pagination links collected, their
parsed values' maximum returned, and 1 returned when there are none. -/
def get_pages (p : PaginationPage) : Int :=
  if !p.fetchOk then 1
  else if p.status ≠ 200 then 1
  else
    match p.lastChild with
    | some (some k) => k
    | some none => 1
    | none =>
      if p.links.isEmpty then 1
      else if p.links.any (fun x => x.isNone) then 1
      else
        let pages := p.links.filterMap id
        if pages.isEmpty then 1 else list_max pages

/-- A first listing page whose last pagination item advertises page 0
while another pagination link advertises page 7. -/
def cexPaginationPage : PaginationPage :=
  { fetchOk := true, status := 200, lastChild := some (some 0), links := [some 0, some 7] }

/-- C5 counterexample: on a page whose last pagination item carries the
marker 0 while the set of pagination link markers is 0 and 7,
`_get_pages` returns 0 — neither an integer at least 1 nor the maximum
marker 7. -/
theorem get_pages_cex :
    get_pages cexPaginationPage = 0
    ∧ ¬(1 ≤ get_pages cexPaginationPage)
    ∧ list_max (cexPaginationPage.links.filterMap id) = 7 := by decide

/-- C5 (amended): `_get_pages` returns 1 whenever the fetch raises, the
status is not 200, the last pagination item's marker does not parse, the
pagination control is absent, or any link marker fails to parse; when the
last pagination item's marker parses to k it returns exactly k (which
need not be at least 1 nor the maximum marker); only when the last-item
selector has no match and all link markers parse does it return the
maximum of the pagination link markers. -/
theorem get_pages_characterization (p : PaginationPage) :
    (p.fetchOk = false → get_pages p = 1)
    ∧ (p.status ≠ 200 → get_pages p = 1)
    ∧ (p.lastChild = some none → get_pages p = 1)
    ∧ (p.lastChild = none → p.links = [] → get_pages p = 1)
    ∧ (p.lastChild = none → (∃ x ∈ p.links, x = none) → get_pages p = 1)
    ∧ (∀ k : Int, p.fetchOk = true → p.status = 200 → p.lastChild = some (some k) →
        get_pages p = k)
    ∧ (p.fetchOk = true → p.status = 200 → p.lastChild = none → p.links ≠ [] →
        (∀ x ∈ p.links, x ≠ none) →
        get_pages p = list_max (p.links.filterMap id)) := by
  refine ⟨?_, ?_, ?_, ?_, ?_, ?_, ?_⟩
  · intro h
    simp [get_pages, h]
  · intro h
    cases hf : p.fetchOk <;> simp [get_pages, hf, h]
  · intro h
    cases hf : p.fetchOk <;> by_cases hs : p.status = 200 <;>
      simp [get_pages, hf, hs, h]
  · intro h hl
    cases hf : p.fetchOk <;> by_cases hs : p.status = 200 <;>
      simp [get_pages, hf, hs, h, hl]
  · intro h hx
    obtain ⟨x, hmem, rfl⟩ := hx
    have hne : p.links.isEmpty = false := by
      cases hl : p.links with
      | nil => rw [hl] at hmem; cases hmem
      | cons y ys => rfl
    have hany : p.links.any (fun x => x.isNone) = true := by
      simp only [List.any_eq_true]
      exact ⟨none, hmem, rfl⟩
    cases hf : p.fetchOk <;> by_cases hs : p.status = 200 <;>
      simp [get_pages, hf, hs, h, hne, hany]
  · intro k hf hs h
    simp [get_pages, hf, hs, h]
  · intro hf hs h hne hall
    have hne' : p.links.isEmpty = false := by
      cases hl : p.links with
      | nil => exact absurd hl hne
      | cons y ys => rfl
    have hany : p.links.any (fun x => x.isNone) = false := by
      cases ha : p.links.any (fun x => x.isNone) with
      | false => rfl
      | true =>
        rw [List.any_eq_true] at ha
        obtain ⟨x, hmem, hx⟩ := ha
        cases x with
        | none => exact absurd rfl (hall none hmem)
        | some a => cases hx
    have hpages : (p.links.filterMap id).isEmpty = false := by
      cases hl : p.links with
      | nil => exact absurd hl hne
      | cons y ys =>
        cases y with
        | none =>
          have := hall none (by rw [hl]; exact List.mem_cons_self none ys)
          exact absurd rfl this
        | some a => simp [hl]
    simp [get_pages, hf, hs, h, hne', hany, hpages]

/-- A first listing page with no last-item marker and two parsable
pagination links. -/
def okPaginationPage : PaginationPage :=
  { fetchOk := true, status := 200, lastChild := none, links := [some 2, some 5] }

/-- Witness for C5: on a page whose pagination links advertise pages 2
and 5 with no last-item marker, `_get_pages` returns the maximum, 5. -/
theorem get_pages_characterization_witness : get_pages okPaginationPage = 5 := by
  have h := (get_pages_characterization okPaginationPage).2.2.2.2.2.2
    rfl rfl rfl (by decide) (by decide)
  rw [h]
  decide

/- ------------------------------------------------------------------ -/
/- Session Manager: `login` (lines 305-363).                           -/
/- ------------------------------------------------------------------ -/

/-- Truthiness of an optional string (Python `not s` is true for `None`
and for the empty string). -/
def truthyStr : Option (List Char) → Bool
  | none => false
  | some s => !s.isEmpty

/-- The environment `login` runs against: the configured credentials and
the outcome of the single form POST (`none` models the request raising;
`some st` a response with status st whose cookies are `postCookies`). -/
structure LoginEnv where
  username : Option (List Char)
  password : Option (List Char)
  postStatus : Option Nat
  postCookies : List (List Char × List Char)

/-- The observable outcome of `login`: its boolean return value, the
session cookies captured into `self.cookies`, and `self.is_logged_in`. -/
structure LoginOutcome where
  success : Bool
  cookies : List (List Char × List Char)
  is_logged_in : Bool
deriving DecidableEq

/-- `login` (lines 305-363): missing or empty credentials return False;
an exception during the POST returns False; a response with status
exactly 302 captures the response cookies, sets `is_logged_in` and
returns True; any other status returns False. One POST, no retry. -/
def login (env : LoginEnv) : LoginOutcome :=
  if !(truthyStr env.username && truthyStr env.password) then ⟨false, [], false⟩
  else
    match env.postStatus with
    | none => ⟨false, [], false⟩
    | some st =>
      if st == 302 then ⟨true, env.postCookies, true⟩
      else ⟨false, [], false⟩

/-- The spec's notion of a redirect-class HTTP status ("a redirect-class
response (e.g. HTTP 302)"). Stated from the spec's words, for comparison
with the code, which tests for 302 exactly. -/
def redirect_class_spec (st : Nat) : Bool := 300 ≤ st && st < 400

/-- A login environment with truthy credentials whose POST answers with
HTTP 303 (a redirect-class status). -/
def cexLoginEnv : LoginEnv :=
  { username := some (("user").toList), password := some (("pw").toList),
    postStatus := some 303, postCookies := [] }

/-- C6 counterexample: HTTP 303 is a redirect-class response, yet `login`
fails on it — the source accepts only status 302. -/
theorem login_redirect_class_cex :
    redirect_class_spec 303 = true ∧ (login cexLoginEnv).success = false := by decide

/-- C6 (amended): with truthy credentials and a POST response of status
st (no exception), `login` succeeds iff st is exactly 302; at 302 it
captures precisely the response cookies as the session; at any other
status — including other redirect-class statuses — it returns false with
no cookies captured. The model performs a single POST: no retry. -/
theorem login_success_iff_302 (env : LoginEnv) (st : Nat)
    (hc : (truthyStr env.username && truthyStr env.password) = true)
    (hp : env.postStatus = some st) :
    ((login env).success = true ↔ st = 302)
    ∧ (st = 302 → login env = ⟨true, env.postCookies, true⟩)
    ∧ (st ≠ 302 → login env = ⟨false, [], false⟩) := by
  by_cases h : st = 302 <;> simp [login, hc, hp, h]

/-- A login environment with truthy credentials whose POST answers with
HTTP 302 and a session cookie. -/
def okLoginEnv : LoginEnv :=
  { username := some (("user").toList), password := some (("pw").toList),
    postStatus := some 302, postCookies := [(("sessionid").toList, ("abc").toList)] }

/-- Witness for C6: at status 302 the login succeeds and the response
cookies become the session. -/
theorem login_success_iff_302_witness :
    login okLoginEnv = ⟨true, okLoginEnv.postCookies, true⟩ :=
  (login_success_iff_302 okLoginEnv 302 (by decide) rfl).2.1 rfl

/- ------------------------------------------------------------------ -/
/- Roll-number sanitization (lines 1168-1180).                         -/
/- ------------------------------------------------------------------ -/

def applyTok : List Char := ("Apply").toList

/-- Roll-number handling in `prepare_offer_data_for_application_form`
(lines 1168-1180): when the offer carries a roll_number whose string
value is truthy and contains the literal "Apply", everything from the
first "Apply" on is removed and the remainder stripped; otherwise the
value passes through unchanged ("N/A" when the key is absent). -/
def prepare_roll_number : Option (List Char) → List Char
  | none => ("N/A").toList
  | some r =>
    if !r.isEmpty && containsSub r applyTok then stripChars (splitBefore r applyTok)
    else r

/-- C8 counterexample: the extracted roll number "123456TContact" carries
the non-numeric markup-bleed suffix "Contact", but sanitization passes it
through untouched — only a literal "Apply" is ever stripped, so the
trailing artifact survives. -/
theorem prepare_roll_number_cex :
    prepare_roll_number (some (("123456TContact").toList)) = ("123456TContact").toList
    ∧ containsSub (prepare_roll_number (some (("123456TContact").toList)))
        (("Contact").toList) = true := by decide

/-- C8 (amended): the sanitization strips from the first literal "Apply"
onward (then trims whitespace); in particular "123456TApply" is
sanitized to "123456T". An extracted roll number not containing "Apply"
is passed through unchanged, artifact or not. -/
theorem prepare_roll_number_amended :
    prepare_roll_number (some (("123456TApply").toList)) = ("123456T").toList
    ∧ ∀ r : List Char, containsSub r applyTok = false →
        prepare_roll_number (some r) = r := by
  constructor
  · decide
  · intro r h
    simp [prepare_roll_number, h]

/-- Witness for C8: a clean roll number "20486R" passes through
unchanged. -/
theorem prepare_roll_number_amended_witness :
    prepare_roll_number (some (("20486R").toList)) = ("20486R").toList :=
  prepare_roll_number_amended.2 (("20486R").toList) (by decide)

/- ------------------------------------------------------------------ -/
/- The record dictionary and the Detail Extractor (`_offer_detail`).   -/
/- ------------------------------------------------------------------ -/

/-- The offer dictionary flowing through the scraper. Keys the listing
phase always sets are plain text (`.get(k, '')` conflates a missing key
with the empty string, as the source's reads do); keys only ever read
with `.get` are `Option`. The fields `additional_information` and
`required_subject` stand for the keys "additional information" and
"required subject" read by `fetch_all`'s re-check. -/
structure Offer where
  url : List Char := []
  id : List Char := []
  school : List Char := []
  vacancy : List Char := []
  status : List Char := []
  county : List Char := []
  deadline : List Char := []
  school_name : Option (List Char) := none
  additional_information : Option (List Char) := none
  description : Option (List Char) := none
  requirements : Option (List Char) := none
  required_subject : Option (List Char) := none
  subjects : Option (List Char) := none
  email : Option (List Char) := none
  roll_number : Option (List Char) := none
deriving DecidableEq

/-- Outcome of one HTTP GET: a timeout, another exception, or a response
with a status code and a parsed body. -/
inductive Fetch (α : Type) where
  | timeout : Fetch α
  | err : Fetch α
  | ok : Nat → α → Fetch α

/-- What `_offer_detail`'s best-effort extractors produce from a fetched
detail page (the BeautifulSoup parsing itself is external library code):
the email found by the Apply To / Enquiries / mailto cascade, the
fetches of the secondary contact/about/staff links (each body represented
by its ordered list of email-regex matches), and the description,
requirements, roll-number and fallback-h2 texts found on the page. -/
structure DetailPage where
  pageEmail : Option (List Char)
  secondary : List (Fetch (List (List Char)))
  description : Option (List Char)
  requirements : Option (List Char)
  roll_number : Option (List Char)
  h2vacancy : Option (List Char)

/-- The secondary-link email probe (lines 1030-1055): walk the (at most
two) contact/about/staff links; a per-link failure or non-200 status is
caught and skipped; the first truthy valid email wins. -/
def secondary_email : List (Fetch (List (List Char))) → Option (List Char)
  | [] => none
  | Fetch.timeout :: rest => secondary_email rest
  | Fetch.err :: rest => secondary_email rest
  | Fetch.ok st body :: rest =>
    if st = 200 then
      match first_valid_email body with
      | some m => if m.isEmpty then secondary_email rest else some m
      | none => secondary_email rest
    else secondary_email rest

/-- The email `_offer_detail` settles on: the on-page cascade result, else
the secondary-link probe over the first two candidate links. -/
def detail_mail (pg : DetailPage) : Option (List Char) :=
  match pg.pageEmail with
  | some m => some m
  | none => secondary_email (pg.secondary.take 2)

/-- Field extraction on a successfully fetched page (lines 674-1027):
description/requirements/roll_number are set only when found. -/
def enrich_fields (pg : DetailPage) (offer : Offer) : Offer :=
  { offer with
    description := match pg.description with
      | some d => some d
      | none => offer.description
    requirements := match pg.requirements with
      | some q => some q
      | none => offer.requirements
    roll_number := match pg.roll_number with
      | some n => some n
      | none => offer.roll_number }

/-- Email attachment (lines 1057-1062): the email key is set only when a
truthy email was found (`if mail:`). -/
def enrich_mail (pg : DetailPage) (o : Offer) : Offer :=
  match detail_mail pg with
  | some m => if m.isEmpty then o else { o with email := some m }
  | none => o

/-- Vacancy fallback (lines 1092-1097): a blank vacancy is replaced by
the stripped h2 heading text when that is truthy. -/
def enrich_h2 (pg : DetailPage) (o : Offer) : Offer :=
  if (stripChars o.vacancy).isEmpty then
    match pg.h2vacancy with
    | some h => if (stripChars h).isEmpty then o else { o with vacancy := stripChars h }
    | none => o
  else o

/-- The full enrichment `_offer_detail` performs on a successfully
fetched page; the record is then always returned. -/
def enrich (pg : DetailPage) (offer : Offer) : Offer :=
  enrich_h2 pg (enrich_mail pg (enrich_fields pg offer))

/-- `_offer_detail` (lines 577-1107): a timeout or exception around the
primary fetch returns None, as does a non-200 status; otherwise the
enriched record is always returned. -/
def offer_detail (page : Fetch DetailPage) (offer : Offer) : Option Offer :=
  match page with
  | Fetch.timeout => none
  | Fetch.err => none
  | Fetch.ok st pg => if st ≠ 200 then none else some (enrich pg offer)

/-- The primary detail-page fetch failed: timeout, exception, or a
non-success status. -/
def fetch_failed : Fetch DetailPage → Bool
  | Fetch.timeout => true
  | Fetch.err => true
  | Fetch.ok st _ => st != 200

theorem enrich_h2_email (pg : DetailPage) (o : Offer) :
    (enrich_h2 pg o).email = o.email := by
  unfold enrich_h2
  split
  · cases pg.h2vacancy with
    | none => rfl
    | some h =>
      by_cases hh : (stripChars h).isEmpty = true <;> simp [hh]
  · rfl

theorem enrich_email_none (pg : DetailPage) (offer : Offer)
    (h1 : pg.pageEmail = none) (h2 : secondary_email (pg.secondary.take 2) = none) :
    (enrich pg offer).email = offer.email := by
  have hm : detail_mail pg = none := by simp [detail_mail, h1, h2]
  unfold enrich
  rw [enrich_h2_email]
  unfold enrich_mail
  rw [hm]
  rfl

/-- C7: `_offer_detail` returns None exactly when the primary detail-page
fetch fails (timeout, non-success status, or exception); and on a 200
page where neither the on-page cascade nor the secondary-link probe finds
an email, the record is still returned with the email field absent. -/
theorem offer_detail_none_iff (page : Fetch DetailPage) (offer : Offer) :
    (offer_detail page offer = none ↔ fetch_failed page = true)
    ∧ (∀ st pg, page = Fetch.ok st pg → st = 200 → offer.email = none →
        pg.pageEmail = none → secondary_email (pg.secondary.take 2) = none →
        ∃ r, offer_detail page offer = some r ∧ r.email = none) := by
  constructor
  · cases page with
    | timeout => simp [offer_detail, fetch_failed]
    | err => simp [offer_detail, fetch_failed]
    | ok st pg =>
      by_cases h : st = 200 <;> simp [offer_detail, fetch_failed, h]
  · intro st pg hpage hst hoe h1 h2
    subst hpage
    subst hst
    refine ⟨enrich pg offer, by simp [offer_detail], ?_⟩
    rw [enrich_email_none pg offer h1 h2, hoe]

/-- A 200 detail page with no email anywhere and no other extractions. -/
def cexDetailPage : DetailPage :=
  { pageEmail := none, secondary := [], description := none,
    requirements := none, roll_number := none, h2vacancy := none }

/-- An offer as the listing phase produces it (no email key). -/
def cexDetailOffer : Offer := { url := ("u").toList, vacancy := teacherTok }

/-- Witness for C7: on a 200 page with no email found anywhere,
`_offer_detail` still returns a record, with the email field absent. -/
theorem offer_detail_none_iff_witness :
    ∃ r, offer_detail (Fetch.ok 200 cexDetailPage) cexDetailOffer = some r
      ∧ r.email = none :=
  (offer_detail_none_iff (Fetch.ok 200 cexDetailPage) cexDetailOffer).2
    200 cexDetailPage rfl rfl rfl rfl rfl

/- ------------------------------------------------------------------ -/
/- Orchestrator: `fetch_all` (lines 190-302).                          -/
/- ------------------------------------------------------------------ -/

def gaelscoilTok : List Char := ("gaelscoil").toList
def teacherCap : List Char := ("Teacher").toList

/-- The joined lower-cased text `fetch_all` re-checks (lines 272-280):
`' '.join` of the six fields read with `.get(k, '')`, then `.lower()`. -/
def all_text (d : Offer) : List Char :=
  lowerStr (joinSp [d.vacancy, d.additional_information.getD [],
    d.description.getD [], d.requirements.getD [],
    d.required_subject.getD [], d.subjects.getD []])

/-- The detail-phase re-check (lines 282-284): "teacher" present,
"principal teacher" absent, exact phrase "special school teacher
placement" absent. (The source does not re-apply `is_valid_vacancy`
here.) -/
def detail_keep (d : Offer) : Bool :=
  containsSub (all_text d) teacherTok
  && !containsSub (all_text d) principalTeacherTok
  && !containsSub (all_text d) specialPlacementTok

/-- The Gaelscoil skip in the detail phase (lines 268-271), keyed on the
`school_name` field. -/
def gaelscoil_blocked (d : Offer) : Bool :=
  containsSub (lowerStr (d.school_name.getD [])) gaelscoilTok

/-- The detail loop of `fetch_all` (lines 263-298): each offer is passed
to `_offer_detail`; a None result is skipped; a Gaelscoil school is
skipped; a record failing the re-check is skipped; a kept record has its
vacancy overwritten with the constant "Teacher" before being appended. -/
def process_offers (detail : Offer → Option Offer) : List Offer → List Offer
  | [] => []
  | o :: rest =>
    match detail o with
    | none => process_offers detail rest
    | some d =>
      if gaelscoil_blocked d then process_offers detail rest
      else if detail_keep d then
        { d with vacancy := teacherCap } :: process_offers detail rest
      else process_offers detail rest

/-- Python `if limit and len(basic) >= limit` (line 236): `limit` must be
truthy (not None, not 0) and the accumulated count at least it. -/
def limit_reached : Option Nat → Nat → Bool
  | none, _ => false
  | some l, n => l != 0 && decide (l ≤ n)

/-- The listing loop (lines 234-252): pages in increasing order, each
contributing its extracted offers, stopping early when the limit is
reached before a page. -/
def collect_basic (pageOffers : Nat → List Offer) (limit : Option Nat) :
    List Nat → List Offer → List Offer
  | [], acc => acc
  | p :: ps, acc =>
    if limit_reached limit acc.length then acc
    else collect_basic pageOffers limit ps (acc ++ pageOffers p)

/-- Lines 224-229: `if max_pages and max_pages < total_pages` — Python
truthiness makes `max_pages = 0` (and None) mean "all pages". -/
def pages_to_process (max_pages : Option Int) (total : Nat) : Int :=
  match max_pages with
  | none => (total : Int)
  | some m => if m ≠ 0 ∧ m < (total : Int) then m else (total : Int)

/-- Python `range(1, p + 1)` over an int p: empty when p is 0 or
negative. -/
def pageList (p : Int) : List Nat := (List.range p.toNat).map (· + 1)

/-- Python `basic[:limit] if limit else basic` (line 263). -/
def limited (limit : Option Nat) (l : List Offer) : List Offer :=
  match limit with
  | none => l
  | some k => if k ≠ 0 then l.take k else l

/-- The environment `fetch_all` runs against: the login outcome, the
page count `_get_pages` reports, each page's extracted offers, and
`_offer_detail` as a function of the basic record. -/
structure FetchEnv where
  loginOk : Bool
  totalPages : Nat
  pageOffers : Nat → List Offer
  detail : Offer → Option Offer

/-- The observables of one `fetch_all` call: the returned records and the
number of `_offer_detail` calls made (one per offer in the detail
loop). -/
structure FetchResult where
  records : List Offer
  detailFetches : Nat
deriving DecidableEq

/-- `fetch_all` (lines 190-302): a requested login that fails returns [];
a zero page count returns []; otherwise pages 1..pages_to_process are
collected (stopping at the limit), an empty basic list returns [], and
otherwise the (limit-truncated) basic list is run through the detail
loop. -/
def fetch_all (env : FetchEnv) (max_pages : Option Int) (login_first : Bool)
    (hasCreds : Bool) (limit : Option Nat) : FetchResult :=
  if login_first && hasCreds && !env.loginOk then ⟨[], 0⟩
  else if env.totalPages = 0 then ⟨[], 0⟩
  else
    let basic := collect_basic env.pageOffers limit
      (pageList (pages_to_process max_pages env.totalPages)) []
    if basic.isEmpty then ⟨[], 0⟩
    else
      let work := limited limit basic
      ⟨process_offers env.detail work, work.length⟩

theorem process_offers_mem {detail : Offer → Option Offer} {l : List Offer} {r : Offer}
    (h : r ∈ process_offers detail l) :
    ∃ d, gaelscoil_blocked d = false ∧ detail_keep d = true
      ∧ r = { d with vacancy := teacherCap } := by
  induction l with
  | nil => simp [process_offers] at h
  | cons o rest ih =>
    rw [process_offers] at h
    cases hd : detail o with
    | none => rw [hd] at h; exact ih h
    | some d =>
      rw [hd] at h
      dsimp only at h
      by_cases hg : gaelscoil_blocked d = true
      · rw [if_pos hg] at h
        exact ih h
      · rw [if_neg hg] at h
        by_cases hk : detail_keep d = true
        · rw [if_pos hk] at h
          rcases List.mem_cons.mp h with rfl | hmem
          · exact ⟨d, by simpa using hg, hk, rfl⟩
          · exact ih hmem
        · rw [if_neg hk] at h
          exact ih h

theorem fetch_all_mem {env : FetchEnv} {mp : Option Int} {lf hc : Bool}
    {lim : Option Nat} {r : Offer}
    (h : r ∈ (fetch_all env mp lf hc lim).records) :
    ∃ d, gaelscoil_blocked d = false ∧ detail_keep d = true
      ∧ r = { d with vacancy := teacherCap } := by
  simp only [fetch_all] at h
  split at h
  · simp at h
  · split at h
    · simp at h
    · split at h
      · simp at h
      · exact process_offers_mem h

/-- C2 (amended): for every strictly negative max_pages, `fetch_all`
returns the empty list and performs zero detail fetches. (max_pages = 0
is Python-falsy and means "all pages", so the original "≤ 0" bound
fails; see the counterexample.) -/
theorem fetch_all_neg_max_pages (env : FetchEnv) (login_first hasCreds : Bool)
    (limit : Option Nat) (m : Int) (hm : m < 0) :
    fetch_all env (some m) login_first hasCreds limit = ⟨[], 0⟩ := by
  unfold fetch_all
  by_cases h1 : (login_first && hasCreds && !env.loginOk) = true
  · rw [if_pos h1]
  · rw [if_neg h1]
    by_cases h2 : env.totalPages = 0
    · rw [if_pos h2]
    · rw [if_neg h2]
      have hp : pages_to_process (some m) env.totalPages = m := by
        unfold pages_to_process
        dsimp only
        rw [if_pos]
        constructor
        · omega
        · omega
      have hl : pageList m = [] := by
        unfold pageList
        have hz : m.toNat = 0 := by omega
        simp [hz]
      rw [hp, hl]
      simp [collect_basic]

/-- An offer whose label is just "teacher". -/
def cexOffer2 : Offer := { url := ("u").toList, vacancy := teacherTok }

/-- A one-page environment whose single offer passes every check. -/
def cexFetchEnv2 : FetchEnv :=
  { loginOk := true, totalPages := 1,
    pageOffers := fun _ => [cexOffer2], detail := fun o => some o }

/-- C2 counterexample: with max_pages = 0 (which is ≤ 0), `fetch_all`
processes all pages — here producing one record and performing one
detail fetch, not an empty result with zero fetches. -/
theorem fetch_all_zero_max_pages_cex :
    (fetch_all cexFetchEnv2 (some 0) false false none).records.length = 1
    ∧ (fetch_all cexFetchEnv2 (some 0) false false none).detailFetches = 1 := by
  decide

/-- Witness for C2 (amended): at max_pages = -1 the same environment
yields no records and no detail fetches. -/
theorem fetch_all_neg_max_pages_witness :
    fetch_all cexFetchEnv2 (some (-1)) false false none = ⟨[], 0⟩ :=
  fetch_all_neg_max_pages cexFetchEnv2 false false none (-1) (by decide)

/-- C3 (amended): every record `fetch_all` returns comes from a detailed
record whose combined text (vacancy, additional information, description,
requirements, required subject, subjects) contains "teacher" and
contains neither "principal teacher" nor the exact phrase "special
school teacher placement", and whose school_name does not contain
"gaelscoil"; the output record is that record with its vacancy
overwritten. The re-check is this weaker three-clause test, not the full
Filter Engine predicate `is_valid_vacancy` (the placement clauses are
not re-applied; see the counterexample). -/
theorem fetch_all_recheck_weak (env : FetchEnv) (mp : Option Int) (lf hc : Bool)
    (lim : Option Nat) (r : Offer)
    (h : r ∈ (fetch_all env mp lf hc lim).records) :
    ∃ d, gaelscoil_blocked d = false ∧ detail_keep d = true
      ∧ r = { d with vacancy := teacherCap } :=
  fetch_all_mem h

/-- An offer whose label is "teacher placement". -/
def cexOffer3 : Offer := { url := ("u").toList, vacancy := ("teacher placement").toList }

/-- A one-page environment delivering the "teacher placement" offer. -/
def cexFetchEnv3 : FetchEnv :=
  { loginOk := true, totalPages := 1,
    pageOffers := fun _ => [cexOffer3], detail := fun o => some o }

/-- C3 counterexample: a record whose combined
vacancy/description/requirements text fails the Filter Engine predicate
`is_valid_vacancy` (it contains "placement" together with "teacher") is
nonetheless kept by `fetch_all`'s detail-phase re-check. -/
theorem fetch_all_recheck_cex :
    (fetch_all cexFetchEnv3 none false false none).records =
      [{ cexOffer3 with vacancy := teacherCap }]
    ∧ is_valid_vacancy (joinSp [cexOffer3.vacancy, cexOffer3.description.getD [],
        cexOffer3.requirements.getD []]) = false := by
  decide

/-- Witness for C3 (amended): applying the theorem to the record the
counterexample environment keeps. -/
theorem fetch_all_recheck_weak_witness :
    ∃ d, gaelscoil_blocked d = false ∧ detail_keep d = true
      ∧ ({ cexOffer3 with vacancy := teacherCap } : Offer) =
          { d with vacancy := teacherCap } :=
  fetch_all_recheck_weak cexFetchEnv3 none false false none
    ({ cexOffer3 with vacancy := teacherCap }) (by decide)

/-- C10: every record in the list `fetch_all` returns has its vacancy
field equal to the constant "Teacher": the detail-phase filter overwrites
the extracted listing-level label before appending the record. -/
theorem fetch_all_vacancy_teacher (env : FetchEnv) (mp : Option Int) (lf hc : Bool)
    (lim : Option Nat) (r : Offer)
    (h : r ∈ (fetch_all env mp lf hc lim).records) :
    r.vacancy = teacherCap := by
  obtain ⟨d, -, -, rfl⟩ := fetch_all_mem h
  rfl

/-- An offer whose label is "Mainstream Class Teacher". -/
def cexOffer10 : Offer :=
  { url := ("u").toList, vacancy := ("Mainstream Class Teacher").toList }

/-- A one-page environment delivering the mainstream-class-teacher
offer. -/
def cexFetchEnv10 : FetchEnv :=
  { loginOk := true, totalPages := 1,
    pageOffers := fun _ => [cexOffer10], detail := fun o => some o }

/-- Witness for C10: the record kept from the mainstream-class-teacher
environment has vacancy "Teacher". -/
theorem fetch_all_vacancy_teacher_witness :
    ({ cexOffer10 with vacancy := teacherCap } : Offer).vacancy = teacherCap :=
  fetch_all_vacancy_teacher cexFetchEnv10 none false false none
    ({ cexOffer10 with vacancy := teacherCap }) (by decide)

end EduPosts
